import Mathlib

/-!
Shallow embedding of `src/simple_scraper.py` from fbcsec/simple-href-scraper.

Python strings are modelled as `List Char` (`PyStr`).  The pure pipeline
functions (`find_hotlinks`, `check_and_fix_protocol`, the filename and
extension derivations) are translated directly from the source.  Effectful
code (`check_if_valid_path`, `get_target_html`, `download_file`, the
per-link loop of `main`) is modelled as pure functions that return the list
of observable events (console output, file-system probe, network retrieval,
sleep) together with either a normal result or a run-terminating Python
exception (`SystemExit`, or an uncaught `TypeError`); both terminate the
process with a non-zero exit status.

External inputs that the program reads from its environment are explicit
parameters: whether the destination directory is writable, whether the page
fetch succeeds, the href attribute values found by the HTML parse of the
fetched page (in document order), and which per-link retrievals succeed.
The BeautifulSoup parse itself is a third-party library call; its output is
modelled as that document-order href list.
-/

namespace SimpleScraper

/-- Python strings, modelled as their character sequences. -/
abbrev PyStr := List Char

/-- Character sequence of a Lean string literal. -/
def pys (s : String) : PyStr := s.toList

/-- Python `s.split(sep)` for a one-character separator `sep`: the maximal
run of separator-free chunks, so the result always has `count sep + 1`
entries and never is empty (`"".split(sep) == [""]`). -/
def splitChar (sep : Char) : List Char → List (List Char)
  | [] => [[]]
  | c :: cs =>
    let r := splitChar sep cs
    if c = sep then [] :: r else (c :: r.headD []) :: r.tail

lemma splitChar_ne_nil (sep : Char) (l : List Char) : splitChar sep l ≠ [] := by
  cases l with
  | nil => simp [splitChar]
  | cons c cs =>
    simp only [splitChar]
    by_cases h : c = sep <;> simp [h]

lemma length_splitChar (sep : Char) (l : List Char) :
    (splitChar sep l).length = l.count sep + 1 := by
  induction l with
  | nil => simp [splitChar]
  | cons c cs ih =>
    simp only [splitChar]
    by_cases h : c = sep
    · simp [h, List.count_cons, ih]
    · have hne := splitChar_ne_nil sep cs
      have hpos : 0 < (splitChar sep cs).length := List.length_pos.mpr hne
      simp only [if_neg h, List.length_cons, List.length_tail]
      rw [List.count_cons]
      simp [h, Ne.symm h]
      omega

lemma splitChar_of_not_mem {sep : Char} {l : List Char} (h : sep ∉ l) :
    splitChar sep l = [l] := by
  induction l with
  | nil => simp [splitChar]
  | cons c cs ih =>
    simp only [List.mem_cons, not_or] at h
    simp [splitChar, Ne.symm h.1, ih h.2]

lemma headD_splitChar (sep : Char) (l : List Char) :
    (splitChar sep l).headD [] = l.takeWhile (fun c => c != sep) := by
  induction l with
  | nil => simp [splitChar]
  | cons c cs ih =>
    simp only [splitChar]
    by_cases h : c = sep
    · simp [h, List.takeWhile_cons]
    · have hne := splitChar_ne_nil sep cs
      cases hr : splitChar sep cs with
      | nil => exact absurd hr hne
      | cons r rs =>
        rw [hr] at ih
        simp only [List.headD_cons] at ih
        simp [h, hr, List.takeWhile_cons, ih]

/-- The chunk of `l` strictly after the last occurrence of `sep`
(the whole of `l` when `sep` does not occur): the value of
Python `l.split(sep)[-1]`. -/
def afterLast (sep : Char) : List Char → List Char
  | [] => []
  | c :: cs =>
    if sep ∈ cs then afterLast sep cs
    else if c = sep then cs else c :: cs

lemma afterLast_of_not_mem {sep : Char} {l : List Char} (h : sep ∉ l) :
    afterLast sep l = l := by
  induction l with
  | nil => rfl
  | cons c cs ih =>
    simp only [List.mem_cons, not_or] at h
    simp [afterLast, h.2, Ne.symm h.1]

lemma afterLast_append_sep (sep : Char) (u : List Char) :
    afterLast sep (u ++ [sep]) = [] := by
  induction u with
  | nil => simp [afterLast]
  | cons c cs ih =>
    have hmem : sep ∈ cs ++ [sep] := by simp
    simp [afterLast, hmem, ih]

lemma getLastD_splitChar (sep : Char) (l : List Char) :
    (splitChar sep l).getLastD [] = afterLast sep l := by
  induction l with
  | nil => simp [splitChar, afterLast]
  | cons c cs ih =>
    simp only [splitChar, afterLast]
    by_cases hmem : sep ∈ cs
    · have hlen : 2 ≤ (splitChar sep cs).length := by
        rw [length_splitChar]
        have : 0 < cs.count sep := List.count_pos_iff.mpr hmem
        omega
      cases hr : splitChar sep cs with
      | nil => simp [hr] at hlen
      | cons r rs =>
        cases rs with
        | nil => simp [hr] at hlen
        | cons r2 rs2 =>
          rw [hr] at ih
          by_cases h : c = sep
          · simp only [if_pos h, if_pos hmem]
            rw [← ih]
            simp
          · simp only [if_neg h, if_pos hmem]
            rw [← ih]
            simp
    · rw [splitChar_of_not_mem hmem] at ih ⊢
      by_cases h : c = sep
      · simp only [if_pos h, if_neg hmem]
        simp
      · simp only [if_neg h, if_neg hmem]
        simp

/-- Index of the first occurrence of `a` in `l` (length of `l` when absent). -/
def firstIndex (l : List PyStr) (a : PyStr) : Nat :=
  match l with
  | [] => 0
  | x :: xs => if x = a then 0 else firstIndex xs a + 1

lemma firstIndex_cons_self (x : PyStr) (l : List PyStr) :
    firstIndex (x :: l) x = 0 := by simp [firstIndex]

lemma firstIndex_cons_ne {x a : PyStr} (l : List PyStr) (h : x ≠ a) :
    firstIndex (x :: l) a = firstIndex l a + 1 := by simp [firstIndex, h]

/-- Model of `list(OrderedDict.fromkeys(hotlinks))` (line 88): insert the
keys left to right, keeping only the first occurrence of each value.
`seen` is the set of keys already inserted. -/
def dedupAux : List PyStr → List PyStr → List PyStr
  | _, [] => []
  | seen, x :: xs =>
    if x ∈ seen then dedupAux seen xs else x :: dedupAux (x :: seen) xs

/-- Deduplication of the extracted href list, as performed by
`list(OrderedDict.fromkeys(hotlinks))`. -/
def dedup (l : List PyStr) : List PyStr := dedupAux [] l

lemma mem_dedupAux {a : PyStr} :
    ∀ {seen l : List PyStr}, a ∈ dedupAux seen l ↔ a ∈ l ∧ a ∉ seen := by
  intro seen l
  induction l generalizing seen with
  | nil => simp [dedupAux]
  | cons x xs ih =>
    by_cases hx : x ∈ seen
    · rw [dedupAux, if_pos hx, ih]
      constructor
      · rintro ⟨h1, h2⟩; exact ⟨List.mem_cons_of_mem x h1, h2⟩
      · rintro ⟨h1, h2⟩
        rcases List.mem_cons.mp h1 with rfl | h1
        · exact absurd hx h2
        · exact ⟨h1, h2⟩
    · rw [dedupAux, if_neg hx]
      simp only [List.mem_cons, ih, List.mem_cons, not_or]
      constructor
      · rintro (rfl | ⟨h1, h2, h3⟩)
        · exact ⟨Or.inl rfl, hx⟩
        · exact ⟨Or.inr h1, h3⟩
      · rintro ⟨rfl | h1, h2⟩
        · exact Or.inl rfl
        · by_cases hax : a = x
          · exact Or.inl hax
          · exact Or.inr ⟨h1, hax, h2⟩

lemma nodup_dedupAux : ∀ (seen l : List PyStr), (dedupAux seen l).Nodup := by
  intro seen l
  induction l generalizing seen with
  | nil => simp [dedupAux]
  | cons x xs ih =>
    by_cases hx : x ∈ seen
    · rw [dedupAux, if_pos hx]; exact ih seen
    · rw [dedupAux, if_neg hx]
      refine List.nodup_cons.mpr ⟨?_, ih (x :: seen)⟩
      intro hmem
      exact (mem_dedupAux.mp hmem).2 (List.mem_cons_self x seen)

lemma pairwise_imp_of_mem {R S : PyStr → PyStr → Prop} :
    ∀ {l : List PyStr}, (∀ a b, a ∈ l → b ∈ l → R a b → S a b) →
      l.Pairwise R → l.Pairwise S := by
  intro l
  induction l with
  | nil => intro _ _; exact List.Pairwise.nil
  | cons x xs ih =>
    intro himp hp
    rw [List.pairwise_cons] at hp ⊢
    refine ⟨fun b hb => himp x b (List.mem_cons_self x xs) (List.mem_cons_of_mem x hb)
      (hp.1 b hb), ih (fun a b ha hb => himp a b (List.mem_cons_of_mem x ha)
        (List.mem_cons_of_mem x hb)) hp.2⟩

lemma pairwise_firstIndex_dedupAux :
    ∀ (seen l : List PyStr),
      (dedupAux seen l).Pairwise (fun a b => firstIndex l a < firstIndex l b) := by
  intro seen l
  induction l generalizing seen with
  | nil => simp [dedupAux]
  | cons x xs ih =>
    by_cases hx : x ∈ seen
    · rw [dedupAux, if_pos hx]
      refine pairwise_imp_of_mem ?_ (ih seen)
      intro a b ha hb hR
      have hax : a ≠ x := fun h => (mem_dedupAux.mp ha).2 (h ▸ hx)
      have hbx : b ≠ x := fun h => (mem_dedupAux.mp hb).2 (h ▸ hx)
      rw [firstIndex_cons_ne xs (Ne.symm hax), firstIndex_cons_ne xs (Ne.symm hbx)]
      omega
    · rw [dedupAux, if_neg hx]
      rw [List.pairwise_cons]
      constructor
      · intro b hb
        have hbx : b ≠ x := fun h =>
          (mem_dedupAux.mp hb).2 (h ▸ List.mem_cons_self x seen)
        rw [firstIndex_cons_self, firstIndex_cons_ne xs (Ne.symm hbx)]
        omega
      · refine pairwise_imp_of_mem ?_ (ih (x :: seen))
        intro a b ha hb hR
        have hax : a ≠ x := fun h =>
          (mem_dedupAux.mp ha).2 (h ▸ List.mem_cons_self x seen)
        have hbx : b ≠ x := fun h =>
          (mem_dedupAux.mp hb).2 (h ▸ List.mem_cons_self x seen)
        rw [firstIndex_cons_ne xs (Ne.symm hax), firstIndex_cons_ne xs (Ne.symm hbx)]
        omega

/-- Line 95: `link_ext = link.split(".")[-1::][0]`, the last chunk of the
`'.'`-split of the full href text.  `splitChar` never returns `[]`, so the
`getLastD` default is never used. -/
def link_ext (link : PyStr) : PyStr := (splitChar '.' link).getLastD []

/-- Model of `find_hotlinks` (lines 78-109).  The BeautifulSoup stage
(lines 83-87) is represented by its output `hrefs`: the href attribute
values of the document's elements that declare one, in document order.
Line 88 deduplicates via `OrderedDict.fromkeys`; lines 89-103 filter by
extension unless `exts` is the `"*"` sentinel (the source compares with
`is not`, which coincides with string inequality for the interned
one-character CPython string `'*'`).  The local `deduped_hotlinks` is
inlined and the append loop of lines 94-101 is the order-preserving
filter. -/
def find_hotlinks (hrefs : List PyStr) (exts : PyStr) : List PyStr :=
  if exts ≠ pys "*" then
    (dedup hrefs).filter fun link => decide (link_ext link ∈ splitChar ',' exts)
  else dedup hrefs

/-- Line 117: `protocol = original_target.split(':')[0]`. -/
def protocol_of (original_target : PyStr) : PyStr :=
  (splitChar ':' original_target).headD []

/-- Model of `check_and_fix_protocol` (lines 112-132): the append loop of
lines 118-131 as a left fold over the url list, starting from the empty
`fixed_urllist`. -/
def check_and_fix_protocol (original_target : PyStr) (urls : List PyStr) : List PyStr :=
  urls.foldl
    (fun fixed_urllist link =>
      if ':' ∈ link then fixed_urllist ++ [link]
      else fixed_urllist ++ [protocol_of original_target ++ ':' :: link])
    []

lemma check_and_fix_protocol_foldl (p : PyStr) (us : List PyStr) :
    ∀ acc : List PyStr,
      us.foldl
        (fun fixed_urllist link =>
          if ':' ∈ link then fixed_urllist ++ [link]
          else fixed_urllist ++ [p ++ ':' :: link]) acc
      = acc ++ us.map (fun link => if ':' ∈ link then link else p ++ ':' :: link) := by
  induction us with
  | nil => intro acc; simp
  | cons u us ih =>
    intro acc
    rw [List.foldl_cons, ih, List.map_cons]
    by_cases h : ':' ∈ u <;> simp [h]

/-- Line 138: `filename = url.split("/")[-1]`. -/
def out_filename (url : PyStr) : PyStr := (splitChar '/' url).getLastD []

/-- Line 139: `full_path = destination_dir + "/" + filename`. -/
def out_full_path (destination_dir url : PyStr) : PyStr :=
  destination_dir ++ '/' :: out_filename url

/-- C1: with a non-sentinel allow-list, `find_hotlinks` keeps a link of the
deduplicated sequence iff the substring after its last `.` (the whole link
when it has no `.`) is, case-sensitively, among the comma-split allow-list
entries; a dotless link is compared whole, so it is dropped unless it
itself is an allow-list entry. -/
theorem C1_extension_filter (hrefs : List PyStr) (exts : PyStr) (link : PyStr)
    (h : exts ≠ pys "*") :
    (link ∈ find_hotlinks hrefs exts ↔
      link ∈ dedup hrefs ∧ afterLast '.' link ∈ splitChar ',' exts)
    ∧ ('.' ∉ link → afterLast '.' link = link) := by
  constructor
  · have hle : link_ext link = afterLast '.' link := by
      rw [link_ext, getLastD_splitChar]
    rw [find_hotlinks, if_pos h, List.mem_filter, hle]
    simp
  · exact fun hd => afterLast_of_not_mem hd

theorem C1_extension_filter_witness :
    (pys "jpg,png" ≠ pys "*")
    ∧ ((pys "x.com/a.jpg" ∈ find_hotlinks [pys "x.com/a.jpg", pys "nodots"] (pys "jpg,png") ↔
          pys "x.com/a.jpg" ∈ dedup [pys "x.com/a.jpg", pys "nodots"]
            ∧ afterLast '.' (pys "x.com/a.jpg") ∈ splitChar ',' (pys "jpg,png"))
        ∧ ('.' ∉ pys "x.com/a.jpg" → afterLast '.' (pys "x.com/a.jpg") = pys "x.com/a.jpg")) :=
  ⟨by decide,
   C1_extension_filter [pys "x.com/a.jpg", pys "nodots"] (pys "jpg,png")
     (pys "x.com/a.jpg") (by decide)⟩

/-- C2: the deduplicated sequence built on line 88 (the pre-filter sequence
of `find_hotlinks`) has no repeated string values, contains exactly the
href values of the document, and lists them ordered by the position of each
value's first occurrence in document order. -/
theorem C2_dedup_first_occurrence (hrefs : List PyStr) :
    (dedup hrefs).Nodup
    ∧ (∀ x, x ∈ dedup hrefs ↔ x ∈ hrefs)
    ∧ (dedup hrefs).Pairwise (fun a b => firstIndex hrefs a < firstIndex hrefs b) := by
  refine ⟨nodup_dedupAux [] hrefs, fun x => ?_, pairwise_firstIndex_dedupAux [] hrefs⟩
  rw [dedup, mem_dedupAux]
  simp

/-- C3: `check_and_fix_protocol` maps each link containing `:` to itself and
each link without `:` to the target's scheme (its text before the first `:`,
the whole target when it has none) followed by `:` and the link text; being
a per-element map, it preserves length and order. -/
theorem C3_protocol_repair (target : PyStr) (urls : List PyStr) :
    check_and_fix_protocol target urls
      = urls.map (fun link =>
          if ':' ∈ link then link
          else target.takeWhile (fun c => c != ':') ++ ':' :: link)
    ∧ (check_and_fix_protocol target urls).length = urls.length := by
  have hmap : check_and_fix_protocol target urls
      = urls.map (fun link =>
          if ':' ∈ link then link
          else target.takeWhile (fun c => c != ':') ++ ':' :: link) := by
    have hp : protocol_of target = target.takeWhile (fun c => c != ':') := by
      rw [protocol_of, headD_splitChar]
    rw [check_and_fix_protocol, check_and_fix_protocol_foldl]
    simp only [hp, List.nil_append]
  exact ⟨hmap, by rw [hmap, List.length_map]⟩

/-- C9: with the `"*"` sentinel the filtering stage of `find_hotlinks` is
skipped and the deduplicated link sequence is returned unchanged. -/
theorem C9_allow_all_sentinel (hrefs : List PyStr) :
    find_hotlinks hrefs (pys "*") = dedup hrefs := by
  simp [find_hotlinks]

/-- C10: for a url whose final character is `/`, line 138 derives the empty
filename, so the write path of line 139 is the destination directory
followed by a bare `/`. -/
theorem C10_trailing_slash_filename (url destination_dir u : PyStr)
    (h : url = u ++ ['/']) :
    out_filename url = []
    ∧ out_full_path destination_dir url = destination_dir ++ ['/'] := by
  have h1 : out_filename url = [] := by
    rw [out_filename, getLastD_splitChar, h, afterLast_append_sep]
  exact ⟨h1, by rw [out_full_path, h1]⟩

theorem C10_trailing_slash_filename_witness :
    (pys "http://x.com/files/" = pys "http://x.com/files" ++ ['/'])
    ∧ (out_filename (pys "http://x.com/files/") = []
        ∧ out_full_path (pys "/out") (pys "http://x.com/files/") = pys "/out" ++ ['/']) :=
  ⟨by decide,
   C10_trailing_slash_filename (pys "http://x.com/files/") (pys "/out")
     (pys "http://x.com/files") (by decide)⟩

/-- Observable effects of the run: console output, the pre-flight probe
file creation and removal, the page fetch, a `urlretrieve` attempt (which
both issues the network request and writes the target file), and the
inter-download pause. -/
inductive Event
  | output (s : PyStr)
  | openProbe (p : PyStr)
  | unlinkProbe (p : PyStr)
  | fetchPage (url : PyStr)
  | retrieve (url : PyStr) (path : PyStr)
  | sleep (t : Nat)
  deriving DecidableEq

/-- Run-terminating Python exceptions of the scraper: `SystemExit` carrying
a message (Python exits with status 1 when the argument is a string), and
an uncaught `TypeError` (traceback, non-zero exit). -/
inductive PyExit
  | systemExit (msg : PyStr)
  | typeError
  deriving DecidableEq

/-- Network activity: the page fetch or a file retrieval attempt. -/
def Event.isNetwork : Event → Bool
  | Event.fetchPage _ => true
  | Event.retrieve _ _ => true
  | _ => false

/-- The inter-download pause of line 145. -/
def Event.isSleep : Event → Bool
  | Event.sleep _ => true
  | _ => false

/-- The probe-file creation of `check_if_valid_path`. -/
def Event.isProbeOpen : Event → Bool
  | Event.openProbe _ => true
  | _ => false

/-- Python percent-formatting for the `%s`-only format strings used by the
scraper: substitute the arguments for the specifiers left to right.  `none`
models the `TypeError` Python raises when the specifier count does not
match the argument count; in particular a format string containing no
specifier applied to an argument (lines 158 and 161) yields `none`. -/
def pyModAux : List Char → List PyStr → Option PyStr
  | [], [] => some []
  | [], _ :: _ => none
  | '%' :: 's' :: rest, a :: args => (pyModAux rest args).map (fun t => a ++ t)
  | '%' :: 's' :: _, [] => none
  | c :: rest, args => (pyModAux rest args).map (fun t => c :: t)

def dryRunMsg : PyStr := pys "[!] Dry Run, no file saved!"

def doneMsg : PyStr := pys "[+] Done."

/-- Line 158's format string, which contains no conversion specifier. -/
def haltFmt : PyStr := pys "Download failed and halt on error set, halting."

/-- Line 161's format string, which contains no conversion specifier. -/
def failedFmt : PyStr := pys "[-] Download Failed"

def retrieveResMsg : PyStr := pys "(urlretrieve result)"

def exceptionMsg : PyStr := pys "(exception text)"

def responseInfoMsg : PyStr := pys "(response headers)"

def debugOnMsg : PyStr := pys "[!] DEBUG mode on."

def argsMsg : PyStr := pys "(arguments object)"

/-- Model of `download_file` (lines 135-162).  `retrieve_ok` is whether the
`urlretrieve` call for this url would succeed.  Dynamic debug texts (the
urlretrieve result tuple of line 147, exception reprs) are abstracted as
fixed markers.  The line 141 header print has matching `%s` specifiers and
is modelled by its result; lines 158 and 161 apply `%` to specifier-free
format strings, so `pyModAux` returns `none` there and the function ends in
`TypeError` instead of the intended `SystemExit`/report. -/
def download_file (url destination_dir : PyStr) (debug silent halt_on_error dry_run : Bool)
    (wait_time : Nat) (retrieve_ok : Bool) : List Event × Except PyExit Bool :=
  let full_path := out_full_path destination_dir url
  let ev0 : List Event :=
    if silent then [] else
      [Event.output (pys "[+] Downloading " ++ url ++ pys " to " ++ full_path ++ pys "...")]
  if dry_run then
    (ev0 ++ (if silent then [] else [Event.output dryRunMsg])
        ++ (if silent then [] else [Event.output doneMsg]), Except.ok true)
  else if retrieve_ok then
    (ev0 ++ [Event.retrieve url full_path, Event.sleep wait_time]
        ++ (if debug then [Event.output retrieveResMsg] else [])
        ++ (if silent then [] else [Event.output doneMsg]), Except.ok true)
  else
    let ev1 := ev0 ++ [Event.retrieve url full_path]
        ++ (if debug then [Event.output exceptionMsg] else [])
    if halt_on_error then
      match pyModAux haltFmt [url] with
      | some s => (ev1, Except.error (PyExit.systemExit s))
      | none => (ev1, Except.error PyExit.typeError)
    else if silent then (ev1, Except.ok false)
    else
      match pyModAux failedFmt [url] with
      | some s => (ev1 ++ [Event.output s], Except.ok false)
      | none => (ev1, Except.error PyExit.typeError)

/-- The urls of the retrieval attempts of a trace, in order. -/
def retrieves (evs : List Event) : List PyStr :=
  evs.filterMap fun e =>
    match e with
    | Event.retrieve u _ => some u
    | _ => none

/-- One step of the download loop of `main` (lines 195-198): an uncaught
exception from `download_file` aborts the loop; a normal return value is
discarded and the loop continues. -/
def stepBatch (r : List Event × Except PyExit Bool)
    (rest : List Event × Except PyExit Unit) : List Event × Except PyExit Unit :=
  match r.2 with
  | Except.error e => (r.1, Except.error e)
  | Except.ok _ => (r.1 ++ rest.1, rest.2)

/-- The per-link download loop of `main` (lines 195-198); `ok` tells on
which urls the underlying `urlretrieve` call would succeed. -/
def run_batch (dir : PyStr) (debug silent halt dry : Bool) (w : Nat)
    (ok : PyStr → Bool) : List PyStr → List Event × Except PyExit Unit
  | [] => ([], Except.ok ())
  | l :: ls =>
    stepBatch (download_file l dir debug silent halt dry w (ok l))
      (run_batch dir debug silent halt dry w ok ls)

/-- Model of `check_if_valid_path` (lines 42-57).  `probe` stands for the
md5-of-current-timestamp filename of line 44 (it depends on the clock);
`writable` is whether the exclusive create of line 48 and the unlink of
line 52 succeed.  On failure the `SystemExit` of line 57 is raised; that
format string has a matching `%s` and is modelled by its result. -/
def check_if_valid_path (path probe : PyStr) (writable debug : Bool) :
    List Event × Except PyExit Bool :=
  let ev0 : List Event :=
    if debug then
      [Event.output (pys "Checking if path is valid by touching " ++ path ++ '/' :: probe)]
    else []
  if writable then
    (ev0 ++ [Event.openProbe (path ++ '/' :: probe)]
        ++ (if debug then
              [Event.output (pys "Successfully opened test file."),
               Event.output (pys "Deleting test file...")]
            else [])
        ++ [Event.unlinkProbe (path ++ '/' :: probe)], Except.ok true)
  else
    (ev0 ++ [Event.openProbe (path ++ '/' :: probe)]
        ++ (if debug then [Event.output exceptionMsg] else []),
     Except.error (PyExit.systemExit
       (pys "Error, could not write to destination directory " ++ path)))

/-- Model of `get_target_html` (lines 60-75).  `fetch_ok` is whether the
GET of lines 65-71 succeeds; the response body is represented by the
document-order href list that the later BeautifulSoup parse extracts from
it.  The `SystemExit` format string of line 75 has a matching `%s`. -/
def get_target_html (url : PyStr) (fetch_ok : Bool) (page_hrefs : List PyStr)
    (debug : Bool) : List Event × Except PyExit (List PyStr) :=
  let ev0 : List Event :=
    if debug then [Event.output (pys "Attempting to fetch " ++ url)] else []
  if fetch_ok then
    (ev0 ++ [Event.fetchPage url]
        ++ (if debug then [Event.output responseInfoMsg] else []), Except.ok page_hrefs)
  else
    (ev0 ++ [Event.fetchPage url]
        ++ (if debug then [Event.output exceptionMsg] else []),
     Except.error (PyExit.systemExit (pys "Error, could not connect to target " ++ url)))

/-- The count report of line 190, with the numeral rendered by `toString`. -/
def foundCountMsg (n : Nat) : PyStr :=
  pys "[+] Found " ++ pys (toString n) ++ pys " hotlinks."

/-- Model of `main` (lines 165-198) after argument parsing.  The debug
banner of lines 176-179 is abstracted as two fixed marker outputs; the
debug prints inside the pure helpers `find_hotlinks` and
`check_and_fix_protocol` are omitted from the trace (they are console
output only and carry no other effect). -/
def main_run (target dir exts : PyStr) (debug silent halt dry : Bool) (w : Nat)
    (probe : PyStr) (writable fetch_ok : Bool) (page_hrefs : List PyStr)
    (ok : PyStr → Bool) : List Event × Except PyExit Unit :=
  let ev0 : List Event :=
    (if debug then [Event.output debugOnMsg, Event.output argsMsg] else [])
      ++ (if silent then [] else
        [Event.output (pys "[+] Scraping " ++ target),
         Event.output (pys "[+] Saving to " ++ dir)])
  match check_if_valid_path dir probe writable debug with
  | (ev1, Except.error e) => (ev0 ++ ev1, Except.error e)
  | (ev1, Except.ok _) =>
    match get_target_html target fetch_ok page_hrefs debug with
    | (ev2, Except.error e) => (ev0 ++ ev1 ++ ev2, Except.error e)
    | (ev2, Except.ok hrefs) =>
      let links := check_and_fix_protocol target (find_hotlinks hrefs exts)
      let ev3 : List Event :=
        if silent then [] else
          Event.output (foundCountMsg links.length)
            :: links.map (fun l => Event.output ('\t' :: l))
            ++ [Event.output (pys "\n")]
      let r := run_batch dir debug silent halt dry w ok links
      (ev0 ++ ev1 ++ ev2 ++ ev3 ++ r.1, r.2)

lemma pyModAux_haltFmt (u : PyStr) : pyModAux haltFmt [u] = none := rfl

lemma pyModAux_failedFmt (u : PyStr) : pyModAux failedFmt [u] = none := rfl

lemma download_file_fail_halt (url dir : PyStr) (debug silent : Bool) (w : Nat) :
    (download_file url dir debug silent true false w false).2
      = Except.error PyExit.typeError := by
  simp [download_file, pyModAux_haltFmt]

lemma download_file_success (url dir : PyStr) (debug silent halt : Bool) (w : Nat) :
    (download_file url dir debug silent halt false w true).2 = Except.ok true := by
  simp [download_file]

lemma retrieves_append (a b : List Event) :
    retrieves (a ++ b) = retrieves a ++ retrieves b := by
  simp [retrieves]

lemma retrieves_download_file (url dir : PyStr) (debug silent halt : Bool) (w : Nat)
    (rok : Bool) :
    retrieves (download_file url dir debug silent halt false w rok).1 = [url] := by
  cases rok <;> cases halt <;> cases silent <;> cases debug <;>
    simp [download_file, retrieves, pyModAux_haltFmt, pyModAux_failedFmt]

/-- C5: with halt-on-error set, a first retrieval failure at position `i`
ends the run with an uncaught exception (a fatal, non-zero exit: line 158's
specifier-free `%` raises `TypeError` while raising the intended
`SystemExit`); the trace shows retrieval attempts for exactly the links up
to and including position `i`, so earlier links were downloaded and no
later link is ever attempted. -/
theorem C5_halt_on_error (links : List PyStr) (dir : PyStr) (debug silent : Bool)
    (w : Nat) (ok : PyStr → Bool) (i : Nat) (hi : i < links.length)
    (hok : (links.take i).all ok = true) (hfail : ok (links.getD i []) = false) :
    (run_batch dir debug silent true false w ok links).2 = Except.error PyExit.typeError
    ∧ retrieves (run_batch dir debug silent true false w ok links).1
        = links.take (i + 1) := by
  induction links generalizing i with
  | nil => simp at hi
  | cons l ls ih =>
    cases i with
    | zero =>
      simp only [List.getD_cons_zero] at hfail
      rw [run_batch, hfail]
      have h2 := download_file_fail_halt l dir debug silent w
      simp only [stepBatch, h2]
      refine ⟨trivial, ?_⟩
      rw [retrieves_download_file l dir debug silent true w false]
      simp
    | succ k =>
      have hi2 : k < ls.length := by simpa using hi
      rw [List.take_succ_cons, List.all_cons, Bool.and_eq_true] at hok
      have hfail2 : ok (ls.getD k []) = false := by simpa using hfail
      obtain ⟨ihout, ihret⟩ := ih k hi2 hok.2 hfail2
      rw [run_batch, hok.1]
      have h2 := download_file_success l dir debug silent true w
      simp only [stepBatch, h2]
      refine ⟨ihout, ?_⟩
      rw [retrieves_append, retrieves_download_file l dir debug silent true w true, ihret]
      simp

/-- Concrete three-link batch for the C5 witness; the second link fails. -/
def linksW : List PyStr :=
  [pys "http://x.com/a.jpg", pys "http://x.com/b.jpg", pys "http://x.com/c.jpg"]

/-- Retrieval outcome for the C5 witness: everything but the second link
of `linksW` succeeds. -/
def okW : PyStr → Bool := fun l => decide (l ≠ pys "http://x.com/b.jpg")

theorem C5_halt_on_error_witness :
    (1 < linksW.length ∧ (linksW.take 1).all okW = true ∧ okW (linksW.getD 1 []) = false)
    ∧ ((run_batch (pys "/out") false false true false 1 okW linksW).2
          = Except.error PyExit.typeError
        ∧ retrieves (run_batch (pys "/out") false false true false 1 okW linksW).1
          = linksW.take 2) :=
  ⟨⟨by decide, by decide, by decide⟩,
   C5_halt_on_error linksW (pys "/out") false false 1 okW 1
     (by decide) (by decide) (by decide)⟩

/-- C4 (code bug): at a failing link with halt-on-error unset and silent
unset, line 161 applies `%` to a specifier-free format string, raising
`TypeError` and aborting the whole run instead of reporting the failure and
returning `False`; only under silent mode does `download_file` return
`False` and the loop run on (here: a two-link silent batch whose downloads
both fail still completes normally). -/
theorem C4_nonsilent_failure_report_crashes :
    (download_file (pys "http://e.com/a.jpg") (pys "/out") false false false false 1 false).2
      = Except.error PyExit.typeError
    ∧ (download_file (pys "http://e.com/a.jpg") (pys "/out") false true false false 1 false).2
      = Except.ok false
    ∧ (run_batch (pys "/out") false true false false 1 (fun _ => false)
        [pys "http://e.com/a.jpg", pys "http://e.com/b.jpg"]).2 = Except.ok () :=
  ⟨rfl, rfl, rfl⟩

/-- C8 (code bug): for the same link, directory and failing retrieval
outcome (halt-on-error and dry-run unset), `download_file` returns `False`
when silent is set but terminates the run with `TypeError` when silent is
unset (line 161): the silent flag changes the per-link result and
termination behavior, not only console output. -/
theorem C8_silent_flag_changes_outcome :
    (download_file (pys "http://e.com/b.png") (pys "/dest") false true false false 1 false).2
      = Except.ok false
    ∧ (download_file (pys "http://e.com/b.png") (pys "/dest") false false false false 1 false).2
      = Except.error PyExit.typeError :=
  ⟨rfl, rfl⟩

lemma download_file_dry (url dir : PyStr) (debug silent halt : Bool) (w : Nat)
    (rok : Bool) :
    (download_file url dir debug silent halt true w rok).2 = Except.ok true
    ∧ ∀ e ∈ (download_file url dir debug silent halt true w rok).1,
        e.isNetwork = false ∧ e.isSleep = false := by
  cases silent <;> simp [download_file, Event.isNetwork, Event.isSleep]

/-- C6: under dry-run `download_file` issues no retrieval (`urlretrieve`
both fetches and writes, so neither happens), never sleeps, and returns the
success indicator `True` for every link; a whole dry-run batch likewise has
no retrieval and no pause in its trace and processes every link to normal
completion. -/
theorem C6_dry_run_no_network_no_pause (url dir : PyStr) (debug silent halt : Bool)
    (w : Nat) (rok : Bool) :
    ((download_file url dir debug silent halt true w rok).2 = Except.ok true
      ∧ ∀ e ∈ (download_file url dir debug silent halt true w rok).1,
          e.isNetwork = false ∧ e.isSleep = false)
    ∧ ∀ (links : List PyStr) (ok : PyStr → Bool),
        (run_batch dir debug silent halt true w ok links).2 = Except.ok ()
        ∧ ∀ e ∈ (run_batch dir debug silent halt true w ok links).1,
            e.isNetwork = false ∧ e.isSleep = false := by
  refine ⟨download_file_dry url dir debug silent halt w rok, ?_⟩
  intro links ok
  induction links with
  | nil => simp [run_batch]
  | cons l ls ih =>
    have hd := download_file_dry l dir debug silent halt w (ok l)
    rw [run_batch]
    simp only [stepBatch, hd.1]
    refine ⟨ih.1, ?_⟩
    intro e he
    rcases List.mem_append.mp he with h | h
    · exact hd.2 e h
    · exact ih.2 e h

/-- C7: `main` performs the destination-directory writability probe before
any network activity: when the directory is not writable the run ends in
`SystemExit` (non-zero exit) with no network event at all in its trace, and
on every run no network event precedes the first probe-open event. -/
theorem C7_preflight_gates_network (target dir exts : PyStr) (debug silent halt dry : Bool)
    (w : Nat) (probe : PyStr) (fetch_ok : Bool) (page_hrefs : List PyStr)
    (ok : PyStr → Bool) :
    ((∃ msg, (main_run target dir exts debug silent halt dry w probe false fetch_ok
        page_hrefs ok).2 = Except.error (PyExit.systemExit msg))
      ∧ ∀ e ∈ (main_run target dir exts debug silent halt dry w probe false fetch_ok
          page_hrefs ok).1, e.isNetwork = false)
    ∧ ∀ writable : Bool,
        ∀ e ∈ ((main_run target dir exts debug silent halt dry w probe writable fetch_ok
            page_hrefs ok).1.takeWhile (fun ev => !ev.isProbeOpen)),
          e.isNetwork = false := by
  refine ⟨⟨⟨pys "Error, could not write to destination directory " ++ dir, ?_⟩, ?_⟩, ?_⟩
  · simp [main_run, check_if_valid_path]
  · cases debug <;> cases silent <;>
      simp [main_run, check_if_valid_path, Event.isNetwork]
  · intro writable
    cases writable
    · cases debug <;> cases silent <;>
        simp [main_run, check_if_valid_path, List.takeWhile_cons,
          Event.isProbeOpen, Event.isNetwork]
    · cases fetch_ok <;> cases debug <;> cases silent <;>
        simp [main_run, check_if_valid_path, get_target_html, List.takeWhile_cons,
          Event.isProbeOpen, Event.isNetwork]

end SimpleScraper
